import Mathlib

/-! # gmail-cleaner: search, confirmation and bulk trash/delete

A shallow embedding of `main.go`: the header scan, the paginated search
(`searchMail`), the mutation loop (`deleteMessages`) and the part of `main`
that runs once the Gmail service has been built.

The Gmail service is a deterministic state machine over an arbitrary state
`σ`: every call reads the current remote state and, when it succeeds, yields
a response and the next remote state.  A failed call makes the program stop
through `log.Fatalf`, so no state is needed after a failure.  Every call the
program issues is recorded, with its response, in the `trace` of the `World`,
oldest call first; console and log lines are recorded in `output`.

A piece of the program ends with a value, through `log.Fatalf` (exit code 1)
or through a run-time panic (exit code 2): `msg.Payload` is a pointer, and
reading `msg.Payload.Headers` on a get response without payload panics.

The inner `for { ... }` of `searchMail` has no bound in the source, so the
embedding takes a number of iterations allowed per query (`fuel`) and returns
`none` when that number is used up.
-/

set_option autoImplicit false

namespace GmailCleaner

/-! ## Data model -/

/-- AppConfig application configuration. -/
structure AppConfig where
  Search : List String
  Delete : Bool
  CredentialFilePath : String

/-- MessageElement represents our custom Message. -/
structure MessageElement where
  subject : String
  date : String
  id : String
  deriving DecidableEq, Repr

/-- One header of a message payload (`gmail.MessagePartHeader`). -/
structure MessagePartHeader where
  Name : String
  Value : String
  deriving DecidableEq, Repr

/-- The payload of a message (`gmail.MessagePart`), of which only the headers are read. -/
structure MessagePart where
  Headers : List MessagePartHeader
  deriving DecidableEq, Repr

/-- A message as the service returns it (`gmail.Message`): the fields the
program reads.  `Payload` is a pointer in the source: `none` is the nil
pointer, which is what the summaries of a list response carry. -/
structure Message where
  Id : String
  Payload : Option MessagePart
  deriving DecidableEq, Repr

/-- The response of a list call (`gmail.ListMessagesResponse`). -/
structure ListMessagesResponse where
  Messages : List Message
  NextPageToken : String
  deriving DecidableEq, Repr

/-- A call on the service.  A list call carries a page token only when
`req.PageToken` was called on the request. -/
inductive Call where
  | list (q : String) (pageToken : Option String)
  | get (id : String)
  | trash (id : String)
  | delete (id : String)
  deriving DecidableEq, Repr

/-- What the service answered. -/
inductive Response where
  | failed (err : String)
  | listed (r : ListMessagesResponse)
  | got (msg : Message)
  | done
  deriving DecidableEq, Repr

/-- A call together with its response. -/
structure Event where
  call : Call
  resp : Response
  deriving DecidableEq, Repr

/-- A line written by the program. -/
inductive Output where
  | stdout (line : String)
  | log (line : String)
  | stderr (line : String)
  deriving DecidableEq, Repr

/-- The Gmail service (`*gmail.Service`, user `"me"`) as a state machine on `σ`. -/
structure Service (σ : Type) where
  list : σ → String → Option String → Except String (ListMessagesResponse × σ)
  get : σ → String → Except String (Message × σ)
  trash : σ → String → Except String σ
  delete : σ → String → Except String σ

/-- Everything outside the program: the remote state, the calls issued so far
and the lines written so far. -/
structure World (σ : Type) where
  remote : σ
  trace : List Event
  output : List Output

/-- The result of a piece of the program: a value, termination by
`log.Fatalf` (exit code 1), or termination by a run-time panic (exit code 2). -/
inductive Exec (α : Type) where
  | ok (a : α)
  | fatal
  | panic
  deriving DecidableEq, Repr

variable {σ : Type}

/-- The world after `log.Printf`/`log.Println`/`log.Fatalf` wrote `line`. -/
def World.log (w : World σ) (line : String) : World σ :=
  { w with output := w.output ++ [Output.log line] }

/-- The world after `fmt.Printf`/`fmt.Println` wrote `line`. -/
def World.print (w : World σ) (line : String) : World σ :=
  { w with output := w.output ++ [Output.stdout line] }

/-- The world after the Go run time reported a panic with `line`. -/
def World.stderr (w : World σ) (line : String) : World σ :=
  { w with output := w.output ++ [Output.stderr line] }

/-- The world after a call failed: the call is recorded, the remote state is kept. -/
def World.failedCall (w : World σ) (c : Call) (err : String) : World σ :=
  { w with trace := w.trace ++ [⟨c, Response.failed err⟩] }

/-- The world after a call succeeded with response `r` and next remote state `s`. -/
def World.answered (w : World σ) (c : Call) (r : Response) (s : σ) : World σ :=
  { w with remote := s, trace := w.trace ++ [⟨c, r⟩] }

/-! ## The program -/

/-- The header loop of `searchMail` (lines 116-125), started with the current
values of `date` and `subject`; the result is `(date, subject)`. -/
def scanHeaders : List MessagePartHeader → String → String → String × String
  | [], date, subject => (date, subject)
  | h :: hs, date, subject =>
    if h.Name = "Date" then scanHeaders hs h.Value subject
    else if h.Name = "Subject" then (date, h.Value)
    else scanHeaders hs date subject

/-- The MessageElement appended for the listed message `id` whose detail has headers `hs`. -/
def mkElement (id : String) (hs : List MessagePartHeader) : MessageElement :=
  { date := (scanHeaders hs "" "").1, id := id, subject := (scanHeaders hs "" "").2 }

/-- The loop over `r.Messages` (lines 108-133).  A get response without
payload makes `msg.Payload.Headers` (line 118) dereference a nil pointer:
the program panics before anything is printed for the message. -/
def fetchMessages (service : Service σ) :
    List Message → List MessageElement → World σ → Exec (List MessageElement) × World σ
  | [], msgs, w => (Exec.ok msgs, w)
  | m :: rest, msgs, w =>
    match service.get w.remote m.Id with
    | Except.error err =>
      (Exec.fatal,
        (w.failedCall (Call.get m.Id) err).log ("Unable to retrieve message " ++ m.Id ++ ": " ++ err))
    | Except.ok (msg, s) =>
      match msg.Payload with
      | none =>
        (Exec.panic,
          (w.answered (Call.get m.Id) (Response.got msg) s).stderr
            "panic: runtime error: invalid memory address or nil pointer dereference")
      | some payload =>
        fetchMessages service rest (msgs ++ [mkElement m.Id payload.Headers])
          ((w.answered (Call.get m.Id) (Response.got msg) s).print
            ("==> \"" ++ (mkElement m.Id payload.Headers).subject ++ "\" - " ++
              (mkElement m.Id payload.Headers).date ++ "\n"))

/-- The page token a list request carries for the current value of `pageToken` (lines 100-102). -/
def requestToken (pageToken : String) : Option String :=
  if pageToken ≠ "" then some pageToken else none

/-- The inner `for { ... }` of `searchMail` for one query (lines 98-142), allowed
`fuel` iterations.  The result holds the list built so far and the value of
`pageToken` when the loop is left. -/
def listPages (service : Service σ) (search : String) :
    Nat → String → List MessageElement → World σ →
      Option (Exec (List MessageElement × String) × World σ)
  | 0, _, _, _ => none
  | fuel + 1, pageToken, msgs, w =>
    match service.list w.remote search (requestToken pageToken) with
    | Except.error err =>
      some (Exec.fatal,
        (w.failedCall (Call.list search (requestToken pageToken)) err).log
          ("Unable to retrieve messages: " ++ err))
    | Except.ok (r, s) =>
      match fetchMessages service r.Messages msgs
          (w.answered (Call.list search (requestToken pageToken)) (Response.listed r) s) with
      | (Exec.fatal, w1) => some (Exec.fatal, w1)
      | (Exec.panic, w1) => some (Exec.panic, w1)
      | (Exec.ok msgs1, w1) =>
        if r.NextPageToken = "" then some (Exec.ok (msgs1, pageToken), w1)
        else listPages service search fuel r.NextPageToken msgs1 w1

/-- The outer loop of `searchMail` over the queries (lines 94-143); `pageToken`
and `msgs` are the variables declared before the loop. -/
def searchQueries (service : Service σ) (fuel : Nat) :
    List String → String → List MessageElement → World σ →
      Option (Exec (List MessageElement) × World σ)
  | [], _, msgs, w => some (Exec.ok msgs, w)
  | search :: rest, pageToken, msgs, w =>
    match listPages service search fuel pageToken msgs
        (w.log ("Searching messages with \"" ++ search ++ "\"")) with
    | none => none
    | some (Exec.fatal, w1) => some (Exec.fatal, w1)
    | some (Exec.panic, w1) => some (Exec.panic, w1)
    | some (Exec.ok (msgs1, pageToken1), w1) =>
      searchQueries service fuel rest pageToken1 msgs1 w1

/-- The function `searchMail` (lines 88-147). -/
def searchMail (service : Service σ) (fuel : Nat) (queries : List String) (w : World σ) :
    Option (Exec (List MessageElement) × World σ) :=
  match searchQueries service fuel queries "" [] w with
  | none => none
  | some (Exec.fatal, w1) => some (Exec.fatal, w1)
  | some (Exec.panic, w1) => some (Exec.panic, w1)
  | some (Exec.ok msgs, w1) =>
    some (Exec.ok msgs,
      w1.log (toString msgs.length ++ " messages found with these criteria...\n"))

/-- The function `deleteMessages` (lines 149-167). -/
def deleteMessages (service : Service σ) :
    List MessageElement → Bool → World σ → Exec Unit × World σ
  | [], _, w => (Exec.ok (), w)
  | message :: rest, deleteMessage, w =>
    if deleteMessage = false then
      match service.trash (w.log ("Trashing \"" ++ message.subject ++ "\"")).remote message.id with
      | Except.error err =>
        (Exec.fatal,
          ((w.log ("Trashing \"" ++ message.subject ++ "\"")).failedCall
            (Call.trash message.id) err).log ("Unable to trash message: " ++ err))
      | Except.ok s =>
        deleteMessages service rest deleteMessage
          ((w.log ("Trashing \"" ++ message.subject ++ "\"")).answered
            (Call.trash message.id) Response.done s)
    else
      match service.delete (w.log ("Deleting \"" ++ message.subject ++ "\"")).remote message.id with
      | Except.error err =>
        (Exec.fatal,
          ((w.log ("Deleting \"" ++ message.subject ++ "\"")).failedCall
            (Call.delete message.id) err).log ("Unable to delete message: " ++ err))
      | Except.ok s =>
        deleteMessages service rest deleteMessage
          ((w.log ("Deleting \"" ++ message.subject ++ "\"")).answered
            (Call.delete message.id) Response.done s)

/-- The end of `main` (lines 199-211), once `searchMail` has returned `messages`.
`scanned` is what `fmt.Scanln(&confirmation)` yields: the error, or the value
stored in `confirmation`.  The result is the exit code and the final world.
`deleteMessages` reads no pointer and never panics (`deleteMessages_no_panic`);
the arm for a panic only makes the match complete. -/
def confirmAndDelete (srv : Service σ) (messages : List MessageElement) (deleteFlag : Bool)
    (scanned : Except String String) (w : World σ) : Nat × World σ :=
  if messages.length > 0 then
    match scanned with
    | Except.error err =>
      (1, (w.print "Are you sure you want to delete/trash these messages ? (yes/No)\n").log
        ("Unable to read response: " ++ err))
    | Except.ok confirmation =>
      if confirmation = "Y" ∨ confirmation = "y" ∨ confirmation = "yes" then
        match deleteMessages srv messages deleteFlag
            (w.print "Are you sure you want to delete/trash these messages ? (yes/No)\n") with
        | (Exec.fatal, w1) => (1, w1)
        | (Exec.panic, w1) => (2, w1)
        | (Exec.ok _, w1) => (0, w1)
      else
        (0, (w.print "Are you sure you want to delete/trash these messages ? (yes/No)\n").log
          "Aborted")
  else (0, w)

/-- The function `main` from line 198 on: the options are parsed and the
service is built.  `none` when the search runs out of `fuel`. -/
def main (srv : Service σ) (opts : AppConfig) (scanned : Except String String) (fuel : Nat)
    (w : World σ) : Option (Nat × World σ) :=
  match searchMail srv fuel opts.Search w with
  | none => none
  | some (Exec.fatal, w1) => some (1, w1)
  | some (Exec.panic, w1) => some (2, w1)
  | some (Exec.ok messages, w1) => some (confirmAndDelete srv messages opts.Delete scanned w1)

/-! ## Vocabulary of the properties -/

/-- The events recorded between the world `before` and the later world `after`. -/
def newEvents (before after : World σ) : List Event :=
  after.trace.drop before.trace.length

/-- The lines written between the world `before` and the later world `after`. -/
def newOutput (before after : World σ) : List Output :=
  after.output.drop before.output.length

/-- Tells whether the call of the event failed. -/
def Event.failed (e : Event) : Bool :=
  match e.resp with
  | Response.failed _ => true
  | _ => false

/-- Tells whether the event is a Trash or a Delete call. -/
def Event.isMutation (e : Event) : Bool :=
  match e.call with
  | Call.trash _ => true
  | Call.delete _ => true
  | _ => false

/-- Tells whether the event is a list call for the query `q`. -/
def Event.isListFor (q : String) (e : Event) : Bool :=
  match e.call with
  | Call.list q1 _ => decide (q1 = q)
  | _ => false

/-- Tells whether the event is a detail (get) call. -/
def Event.isGet (e : Event) : Bool :=
  match e.call with
  | Call.get _ => true
  | _ => false

/-- The call the mode flag dictates for a record: Delete when the flag is
true, Trash when it is false. -/
def mutationCall (deleteMessage : Bool) (message : MessageElement) : Call :=
  if deleteMessage then Call.delete message.id else Call.trash message.id

/-- The answer of the provider, in the remote state `s`, to the call the mode
flag dictates for the record `message`: the answer of `service.delete` when
the flag is true, of `service.trash` when it is false. -/
def providerAnswer (service : Service σ) (deleteMessage : Bool) (s : σ)
    (message : MessageElement) : Except String σ :=
  if deleteMessage = true then service.delete s message.id else service.trash s message.id

/-- The remote state once the provider has answered, from the state `s` on,
the calls the mode flag dictates for the records `messages` in order, up to
its first failure: a call that succeeds moves to the state it yields, a call
that fails leaves the state as it is and ends the sequence. -/
def remoteAfter (service : Service σ) (deleteMessage : Bool) : σ → List MessageElement → σ
  | s, [] => s
  | s, message :: rest =>
    match providerAnswer service deleteMessage s message with
    | Except.ok s1 => remoteAfter service deleteMessage s1 rest
    | Except.error _ => s

/-- The response of a Trash or Delete call for an answer of the provider. -/
def mutationResponse : Except String σ → Response
  | Except.ok _ => Response.done
  | Except.error err => Response.failed err

/-- Equality of two strings ignoring the case of the letters A-Z. -/
def equalIgnoreCase (s t : String) : Bool :=
  decide (s.data.map Char.toLower = t.data.map Char.toLower)

/-- An empty world for a service without state. -/
def emptyWorld : World Unit :=
  { remote := (), trace := [], output := [] }

/-- A service whose answers depend on the request only. -/
def statelessService (list : String → Option String → Except String ListMessagesResponse)
    (get : String → Except String Message) (trash delete : String → Except String Unit) :
    Service Unit where
  list := fun _ q tok => (list q tok).map (fun r => (r, ()))
  get := fun _ id => (get id).map (fun m => (m, ()))
  trash := fun _ id => (trash id).map (fun _ => ())
  delete := fun _ id => (delete id).map (fun _ => ())

/-- The page sequence a stateless list function holds for the query `q` from
the token `tok` on: the response to `tok`, then the response to each
continuation token in turn, up to and including the first response whose
continuation token is empty.  `none` when a call fails or the sequence does
not end within `n` pages.  The page sequence of a query is the one from no
token. -/
def pageSequence (list : String → Option String → Except String ListMessagesResponse)
    (q : String) : Nat → Option String → Option (List ListMessagesResponse)
  | 0, _ => none
  | n + 1, tok =>
    match list q tok with
    | Except.error _ => none
    | Except.ok r =>
      if r.NextPageToken = "" then some [r]
      else (pageSequence list q n (some r.NextPageToken)).map (fun rs => r :: rs)

/-- The service with the list function `list` on which the get call on an id
returns the message of that id with the payload `detail id`, and Trash and
Delete succeed. -/
def detailService (list : String → Option String → Except String ListMessagesResponse)
    (detail : String → MessagePart) : Service Unit :=
  statelessService list (fun id => Except.ok ⟨id, some (detail id)⟩) (fun _ => Except.ok ())
    (fun _ => Except.ok ())

/-- The records of the summaries of the pages `pages`, in page order and, in a
page, in the order of the page. -/
def recordsOf (detail : String → MessagePart) (pages : List ListMessagesResponse) :
    List MessageElement :=
  pages.flatMap (fun r => r.Messages.map (fun m => mkElement m.Id (detail m.Id).Headers))

/-- The ids of the summaries the response of the event lists (none for an
event that is not a successful list call). -/
def Event.listedIds (e : Event) : List String :=
  match e.resp with
  | Response.listed r => r.Messages.map (fun m => m.Id)
  | _ => []

/-- The id of the event when it is a get call (none for any other event). -/
def Event.getIds (e : Event) : List String :=
  match e.call with
  | Call.get id => [id]
  | _ => []

/-! ## Sample services -/

/-- A mailbox whose state is the list of the ids it still holds: Trash and
Delete succeed on an id the mailbox holds, which they remove, and fail on any
other id; a list call returns one page with every id held, and a get call
returns a message whose payload has no header. -/
def mailboxService : Service (List String) where
  list := fun s _ _ => Except.ok (⟨s.map (fun id => ⟨id, none⟩), ""⟩, s)
  get := fun s id => Except.ok (⟨id, some ⟨[]⟩⟩, s)
  trash := fun s id => if id ∈ s then Except.ok (s.erase id) else Except.error "not found"
  delete := fun s id => if id ∈ s then Except.ok (s.erase id) else Except.error "not found"

/-- A world in which `mailboxService` holds the ids "1", "2" and "3". -/
def mailboxWorld : World (List String) :=
  { remote := ["1", "2", "3"], trace := [], output := [] }

/-- A listed summary: a message of which only the id is set. -/
def summary (id : String) : Message :=
  ⟨id, none⟩

/-- The payload without header, for every id. -/
def noHeaders (_ : String) : MessagePart :=
  ⟨[]⟩

/-- A list function with pages of one message and continuation tokens that
are offsets: the query "q1" matches the messages "a" and "b", the query "q2"
the messages "c", "d" and "e".  Without token the page at offset 0 is
returned, with the token "1" or "2" the page at that offset; any other
request is answered with an empty last page. -/
def offsetList (q : String) (tok : Option String) : Except String ListMessagesResponse :=
  match q, tok with
  | "q1", none => Except.ok ⟨[summary "a"], "1"⟩
  | "q1", some "1" => Except.ok ⟨[summary "b"], ""⟩
  | "q2", none => Except.ok ⟨[summary "c"], "1"⟩
  | "q2", some "1" => Except.ok ⟨[summary "d"], "2"⟩
  | "q2", some "2" => Except.ok ⟨[summary "e"], ""⟩
  | _, _ => Except.ok ⟨[], ""⟩

/-- The service with the pages of `offsetList`, on which every call succeeds;
every message has a "Date" header followed by a "Subject" header. -/
def offsetService : Service Unit :=
  statelessService offsetList
    (fun id => Except.ok ⟨id, some ⟨[⟨"Date", "D-" ++ id⟩, ⟨"Subject", "S-" ++ id⟩]⟩⟩)
    (fun _ => Except.ok ()) (fun _ => Except.ok ())

/-- The list function of the end-to-end scenario: each of the two queries
has one page with one message. -/
def scenarioList (q : String) (tok : Option String) : Except String ListMessagesResponse :=
  match q, tok with
  | "from:a@x.com", none => Except.ok ⟨[summary "1"], ""⟩
  | "from:b@y.com", none => Except.ok ⟨[summary "2"], ""⟩
  | _, _ => Except.ok ⟨[], ""⟩

/-- The service of the end-to-end scenario, on which every call succeeds;
the message "1" has the headers `hs1` and the message "2" the headers `hs2`. -/
def scenarioService (hs1 hs2 : List MessagePartHeader) : Service Unit :=
  statelessService scenarioList
    (fun id => if id = "1" then Except.ok ⟨id, some ⟨hs1⟩⟩ else Except.ok ⟨id, some ⟨hs2⟩⟩)
    (fun _ => Except.ok ()) (fun _ => Except.ok ())

/-- The service with the pages of the end-to-end scenario whose get
responses carry no payload. -/
def bareService : Service Unit :=
  statelessService scenarioList (fun id => Except.ok ⟨id, none⟩)
    (fun _ => Except.ok ()) (fun _ => Except.ok ())

/-- The options of the end-to-end scenario: the two queries, mode Trash. -/
def scenarioOpts : AppConfig :=
  { Search := ["from:a@x.com", "from:b@y.com"], Delete := false,
    CredentialFilePath := "credentials.json" }

/-! ## The header scan -/

theorem scanHeaders_date (hs : List MessagePartHeader) (d s : String) :
    (scanHeaders hs d s).1 =
      ((((hs.takeWhile (fun h => decide (h.Name ≠ "Subject"))).filter
        (fun h => decide (h.Name = "Date"))).getLast?).map (fun h => h.Value)).getD d := by
  induction hs generalizing d with
  | nil => simp [scanHeaders]
  | cons h t ih =>
    by_cases hd : h.Name = "Date"
    · have hns : h.Name ≠ "Subject" := by rw [hd]; decide
      simp only [scanHeaders, hd, if_true]
      rw [ih]
      simp [List.takeWhile_cons, hd, List.filter_cons, List.getLast?_cons]
    · by_cases hsub : h.Name = "Subject"
      · simp [scanHeaders, hd, hsub, List.takeWhile_cons]
      · simp only [scanHeaders, hd, hsub, if_false]
        rw [ih]
        simp [List.takeWhile_cons, hd, hsub, List.filter_cons]

theorem scanHeaders_subject (hs : List MessagePartHeader) (d s : String) :
    (scanHeaders hs d s).2 =
      ((hs.find? (fun h => decide (h.Name = "Subject"))).map (fun h => h.Value)).getD s := by
  induction hs generalizing d with
  | nil => simp [scanHeaders]
  | cons h t ih =>
    by_cases hd : h.Name = "Date"
    · have hns : h.Name ≠ "Subject" := by rw [hd]; decide
      simp only [scanHeaders, hd, if_true]
      rw [ih]
      simp [List.find?_cons, hns]
    · by_cases hsub : h.Name = "Subject"
      · simp [scanHeaders, hd, hsub, List.find?_cons]
      · simp only [scanHeaders, hd, hsub, if_false]
        rw [ih]
        simp [List.find?_cons, hsub]

theorem scanHeaders_after_subject (pre post post' : List MessagePartHeader) (v d s : String) :
    scanHeaders (pre ++ ⟨"Subject", v⟩ :: post) d s =
      scanHeaders (pre ++ ⟨"Subject", v⟩ :: post') d s := by
  induction pre generalizing d with
  | nil => simp [scanHeaders]
  | cons h t ih =>
    by_cases hd : h.Name = "Date"
    · simp only [List.cons_append, scanHeaders, hd, if_true]
      exact ih _
    · by_cases hsub : h.Name = "Subject"
      · simp [scanHeaders, hd, hsub]
      · simp only [List.cons_append, scanHeaders, hd, hsub, if_false]
        exact ih _

/-- C10: for every header list, the subject built by the header scan of
searchMail is the value of the first header named exactly "Subject" (the empty
string when there is none); the date is the value of the last header named
exactly "Date" among the headers before the first "Subject" header (among all
headers when there is no "Subject" header), or the empty string when there is
no such header; and what follows a "Subject" header has no influence on the
record built. -/
theorem searchMail_header_scan (id : String) (hs : List MessagePartHeader) :
    (mkElement id hs).subject =
        ((hs.find? (fun h => decide (h.Name = "Subject"))).map (fun h => h.Value)).getD "" ∧
    (mkElement id hs).date =
        ((((hs.takeWhile (fun h => decide (h.Name ≠ "Subject"))).filter
          (fun h => decide (h.Name = "Date"))).getLast?).map (fun h => h.Value)).getD "" ∧
    ∀ (pre post post' : List MessagePartHeader) (v : String),
      mkElement id (pre ++ ⟨"Subject", v⟩ :: post) =
        mkElement id (pre ++ ⟨"Subject", v⟩ :: post') := by
  refine ⟨scanHeaders_subject hs "" "", scanHeaders_date hs "" "", ?_⟩
  intro pre post post' v
  simp only [mkElement, scanHeaders_after_subject pre post post' v "" ""]

/-- C2, as stated, fails: a detail response whose only header is a "Subject"
header with an empty value yields an empty subject although a header named
"Subject" is present, and likewise for a "Date" header with an empty value. -/
theorem mkElement_empty_value_counterexample :
    ¬ ((mkElement "1" [⟨"Subject", ""⟩]).subject = "" ↔
        ¬ ∃ h ∈ [(⟨"Subject", ""⟩ : MessagePartHeader)], h.Name = "Subject") ∧
    ¬ ((mkElement "1" [⟨"Date", ""⟩]).date = "" ↔
        ¬ ∃ h ∈ [(⟨"Date", ""⟩ : MessagePartHeader)], h.Name = "Date") := by
  decide

/-- C2, amended: the subject built by searchMail is the empty string if and
only if the header list has no header named exactly "Subject" or the first
such header has an empty value; the date is the empty string whenever the
header list has no header named exactly "Date"; and for every header list in
which no "Date" header comes after the first "Subject" header, the date is
the empty string if and only if the header list has no header named exactly
"Date" or the last such header has an empty value. -/
theorem mkElement_empty_fields (id : String) (hs : List MessagePartHeader) :
    ((mkElement id hs).subject = "" ↔
      ((¬ ∃ h ∈ hs, h.Name = "Subject") ∨
        ∃ h, hs.find? (fun h => decide (h.Name = "Subject")) = some h ∧ h.Value = "")) ∧
    ((¬ ∃ h ∈ hs, h.Name = "Date") → (mkElement id hs).date = "") ∧
    ((∀ h ∈ hs.dropWhile (fun h => decide (h.Name ≠ "Subject")), h.Name ≠ "Date") →
      ((mkElement id hs).date = "" ↔
        ((¬ ∃ h ∈ hs, h.Name = "Date") ∨
          ∃ h, (hs.filter (fun h => decide (h.Name = "Date"))).getLast? = some h ∧
            h.Value = ""))) := by
  refine ⟨?_, ?_, ?_⟩
  · show (scanHeaders hs "" "").2 = "" ↔ _
    rw [scanHeaders_subject]
    cases hf : hs.find? (fun h => decide (h.Name = "Subject")) with
    | none =>
      simp only [Option.map_none', Option.getD_none, true_iff]
      left
      rintro ⟨h, hmem, hname⟩
      have := List.find?_eq_none.mp hf h hmem
      simp [hname] at this
    | some h0 =>
      simp only [Option.map_some', Option.getD_some]
      constructor
      · intro hv
        exact Or.inr ⟨h0, rfl, hv⟩
      · rintro (hno | ⟨h, hh, hv⟩)
        · exfalso
          apply hno
          refine ⟨h0, List.mem_of_find?_eq_some hf, ?_⟩
          simpa using List.find?_some hf
        · cases hh
          exact hv
  · intro hno
    show (scanHeaders hs "" "").1 = ""
    rw [scanHeaders_date]
    have : (hs.takeWhile (fun h => decide (h.Name ≠ "Subject"))).filter
        (fun h => decide (h.Name = "Date")) = [] := by
      rw [List.filter_eq_nil_iff]
      intro h hmem hname
      exact hno ⟨h, (List.takeWhile_sublist _).subset hmem, by simpa using hname⟩
    rw [this]
    rfl
  · intro hafter
    have hfilter : hs.filter (fun h => decide (h.Name = "Date")) =
        (hs.takeWhile (fun h => decide (h.Name ≠ "Subject"))).filter
          (fun h => decide (h.Name = "Date")) := by
      have hdrop : (hs.dropWhile (fun h => decide (h.Name ≠ "Subject"))).filter
          (fun h => decide (h.Name = "Date")) = [] := by
        rw [List.filter_eq_nil_iff]
        intro h hmem hname
        exact hafter h hmem (by simpa using hname)
      conv_lhs => rw [← List.takeWhile_append_dropWhile (fun h => decide (h.Name ≠ "Subject")) hs]
      rw [List.filter_append, hdrop, List.append_nil]
    show (scanHeaders hs "" "").1 = "" ↔ _
    rw [scanHeaders_date, ← hfilter]
    cases hl : (hs.filter (fun h => decide (h.Name = "Date"))).getLast? with
    | none =>
      simp only [Option.map_none', Option.getD_none, true_iff]
      left
      rintro ⟨h, hmem, hname⟩
      have hnil : hs.filter (fun h => decide (h.Name = "Date")) = [] := by
        simpa using hl
      have hin : h ∈ hs.filter (fun h => decide (h.Name = "Date")) :=
        List.mem_filter.mpr ⟨hmem, by simpa using hname⟩
      rw [hnil] at hin
      cases hin
    | some h0 =>
      simp only [Option.map_some', Option.getD_some]
      constructor
      · intro hv
        exact Or.inr ⟨h0, rfl, hv⟩
      · rintro (hno | ⟨h, hh, hv⟩)
        · exfalso
          apply hno
          have hmem := List.mem_of_getLast?_eq_some hl
          rw [List.mem_filter] at hmem
          exact ⟨h0, hmem.1, by simpa using hmem.2⟩
        · cases hh
          exact hv

/-- Witness of `mkElement_empty_fields`: a header list without "Date" header
gives an empty date; and on the list with a "Date" header before the
"Subject" header, where no "Date" header comes after the "Subject" header,
the date is empty exactly when the list has no "Date" header or the last one
has an empty value. -/
theorem mkElement_empty_fields_witness :
    (mkElement "1" [⟨"Subject", "Hi"⟩]).date = "" ∧
    ((mkElement "1" [⟨"Date", "D1"⟩, ⟨"Subject", "Hi"⟩]).date = "" ↔
      ((¬ ∃ h ∈ [(⟨"Date", "D1"⟩ : MessagePartHeader), ⟨"Subject", "Hi"⟩], h.Name = "Date") ∨
        ∃ h, ([(⟨"Date", "D1"⟩ : MessagePartHeader), ⟨"Subject", "Hi"⟩].filter
          (fun h => decide (h.Name = "Date"))).getLast? = some h ∧ h.Value = "")) :=
  ⟨(mkElement_empty_fields "1" [⟨"Subject", "Hi"⟩]).2.1 (by decide),
   (mkElement_empty_fields "1" [⟨"Date", "D1"⟩, ⟨"Subject", "Hi"⟩]).2.2 (by decide)⟩

/-! ## The mutation loop -/

@[simp] theorem World.log_trace (w : World σ) (line : String) : (w.log line).trace = w.trace := rfl

@[simp] theorem World.print_trace (w : World σ) (line : String) :
    (w.print line).trace = w.trace := rfl

@[simp] theorem World.log_remote (w : World σ) (line : String) :
    (w.log line).remote = w.remote := rfl

@[simp] theorem World.print_remote (w : World σ) (line : String) :
    (w.print line).remote = w.remote := rfl

@[simp] theorem World.failedCall_trace (w : World σ) (c : Call) (err : String) :
    (w.failedCall c err).trace = w.trace ++ [⟨c, Response.failed err⟩] := rfl

@[simp] theorem World.answered_trace (w : World σ) (c : Call) (r : Response) (s : σ) :
    (w.answered c r s).trace = w.trace ++ [⟨c, r⟩] := rfl

@[simp] theorem World.answered_remote (w : World σ) (c : Call) (r : Response) (s : σ) :
    (w.answered c r s).remote = s := rfl

theorem newEvents_append (w w1 : World σ) (t : List Event) (h : w1.trace = w.trace ++ t) :
    newEvents w w1 = t := by
  simp [newEvents, h]

/-- The shape of a run of deleteMessages: either every record got its call and
every call succeeded, or the calls stop at the first record whose call failed. -/
theorem deleteMessages_trace (service : Service σ) (messages : List MessageElement)
    (deleteMessage : Bool) (w : World σ) :
    ((deleteMessages service messages deleteMessage w).1 = Exec.ok () ∧
      (deleteMessages service messages deleteMessage w).2.trace =
        w.trace ++ messages.map (fun m => ⟨mutationCall deleteMessage m, Response.done⟩)) ∨
    ((deleteMessages service messages deleteMessage w).1 = Exec.fatal ∧
      ∃ (pre : List MessageElement) (m : MessageElement) (post : List MessageElement)
        (err : String), messages = pre ++ m :: post ∧
        (deleteMessages service messages deleteMessage w).2.trace =
          w.trace ++ (pre.map (fun m => ⟨mutationCall deleteMessage m, Response.done⟩) ++
            [⟨mutationCall deleteMessage m, Response.failed err⟩])) := by
  induction messages generalizing w with
  | nil => left; simp [deleteMessages]
  | cons m rest ih =>
    cases deleteMessage with
    | false =>
      simp only [deleteMessages, if_true]
      cases hcall : service.trash (w.log ("Trashing \"" ++ m.subject ++ "\"")).remote m.id with
      | error err =>
        right
        exact ⟨rfl, [], m, rest, err, rfl, by simp [mutationCall]⟩
      | ok s =>
        simp only
        rcases ih ((w.log ("Trashing \"" ++ m.subject ++ "\"")).answered
            (Call.trash m.id) Response.done s) with ⟨h1, h2⟩ | ⟨h1, pre, m1, post, err, h2, h3⟩
        · left
          exact ⟨h1, by rw [h2]; simp [mutationCall]⟩
        · right
          refine ⟨h1, m :: pre, m1, post, err, by rw [h2]; rfl, ?_⟩
          rw [h3]; simp [mutationCall]
    | true =>
      simp only [deleteMessages, Bool.true_eq_false, if_false]
      cases hcall : service.delete (w.log ("Deleting \"" ++ m.subject ++ "\"")).remote m.id with
      | error err =>
        right
        exact ⟨rfl, [], m, rest, err, rfl, by simp [mutationCall]⟩
      | ok s =>
        simp only
        rcases ih ((w.log ("Deleting \"" ++ m.subject ++ "\"")).answered
            (Call.delete m.id) Response.done s) with ⟨h1, h2⟩ | ⟨h1, pre, m1, post, err, h2, h3⟩
        · left
          exact ⟨h1, by rw [h2]; simp [mutationCall]⟩
        · right
          refine ⟨h1, m :: pre, m1, post, err, by rw [h2]; rfl, ?_⟩
          rw [h3]; simp [mutationCall]

/-- The mutation loop ends with a value or through `log.Fatalf`, never by a panic. -/
theorem deleteMessages_no_panic (service : Service σ) (messages : List MessageElement)
    (deleteMessage : Bool) (w : World σ) :
    (deleteMessages service messages deleteMessage w).1 ≠ Exec.panic := by
  rcases deleteMessages_trace service messages deleteMessage w with ⟨h, _⟩ | ⟨h, _⟩ <;>
    rw [h] <;> simp

/-- The calls recorded by deleteMessages: in result-list order, one per record
on that record's id, of the kind of the mode flag, none after a failed one. -/
theorem deleteMessages_recorded (service : Service σ) (messages : List MessageElement)
    (deleteMessage : Bool) (w : World σ) :
    (deleteMessages service messages deleteMessage w).2.trace =
      w.trace ++ newEvents w (deleteMessages service messages deleteMessage w).2 ∧
    (newEvents w (deleteMessages service messages deleteMessage w).2).map Event.call =
      (messages.take (newEvents w (deleteMessages service messages deleteMessage w).2).length).map
        (mutationCall deleteMessage) ∧
    (∀ e ∈ newEvents w (deleteMessages service messages deleteMessage w).2,
      e.isMutation = true) ∧
    (∀ (k : Nat) (hk : k < (newEvents w (deleteMessages service messages deleteMessage w).2).length),
      ((newEvents w (deleteMessages service messages deleteMessage w).2).get ⟨k, hk⟩).failed = true →
        (newEvents w (deleteMessages service messages deleteMessage w).2).length = k + 1) ∧
    ((∀ e ∈ newEvents w (deleteMessages service messages deleteMessage w).2, e.failed = false) →
      (newEvents w (deleteMessages service messages deleteMessage w).2).length = messages.length) ∧
    ((deleteMessages service messages deleteMessage w).1 = Exec.fatal ↔
      ∃ e ∈ newEvents w (deleteMessages service messages deleteMessage w).2, e.failed = true) := by
  have hmut : ∀ m : MessageElement, ∀ r : Response,
      Event.isMutation ⟨mutationCall deleteMessage m, r⟩ = true := by
    intro m r; cases deleteMessage <;> rfl
  rcases deleteMessages_trace service messages deleteMessage w with
    ⟨h1, h2⟩ | ⟨h1, pre, m, post, err, h2, h3⟩
  · rw [newEvents_append w _ _ h2]
    refine ⟨h2, ?_, ?_, ?_, ?_, ?_⟩
    · simp
    · intro e he
      rw [List.mem_map] at he
      obtain ⟨m, _, rfl⟩ := he
      exact hmut m _
    · intro k hk hf
      simp [Event.failed] at hf
    · intro _; simp
    · rw [h1]
      simp [Event.failed]
  · rw [newEvents_append w _ _ h3]
    refine ⟨h3, ?_, ?_, ?_, ?_, ?_⟩
    · subst h2
      have hcomp : (Event.call ∘ fun m : MessageElement =>
          (⟨mutationCall deleteMessage m, Response.done⟩ : Event)) = mutationCall deleteMessage := rfl
      have htake : (pre ++ m :: post).take (pre.length + 1) = pre ++ [m] := by
        rw [List.take_append_eq_append_take]
        simp
      simp only [List.length_append, List.length_map, List.length_singleton, htake,
        List.map_append, List.map_map, hcomp, List.map_cons, List.map_nil]
    · intro e he
      rw [List.mem_append, List.mem_map, List.mem_singleton] at he
      rcases he with ⟨m1, _, rfl⟩ | rfl
      · exact hmut m1 _
      · exact hmut m _
    · intro k hk hf
      simp only [List.length_append, List.length_map, List.length_singleton] at hk ⊢
      by_cases hlt : k < pre.length
      · exfalso
        rw [List.get_eq_getElem, List.getElem_append_left (by simpa using hlt)] at hf
        simp [Event.failed] at hf
      · omega
    · intro hall
      exfalso
      have := hall ⟨mutationCall deleteMessage m, Response.failed err⟩ (by simp)
      simp [Event.failed] at this
    · rw [h1]
      simp only [true_iff]
      exact ⟨⟨mutationCall deleteMessage m, Response.failed err⟩, by simp, rfl⟩

/-- What deleteMessages asks of the provider.  The call at position `k` is the
call of the mode flag on the record at position `k`, issued in the remote
state the provider has reached after the calls for the records before it, and
the response recorded is the provider's answer to it; the final remote state
is the one the provider has reached. -/
theorem deleteMessages_provider (service : Service σ) (messages : List MessageElement)
    (deleteMessage : Bool) (w : World σ) :
    ∃ t : List Event,
      (deleteMessages service messages deleteMessage w).2.trace = w.trace ++ t ∧
      (deleteMessages service messages deleteMessage w).2.remote =
        remoteAfter service deleteMessage w.remote messages ∧
      ∀ (k : Nat) (e : Event), t[k]? = some e →
        ∃ m, messages[k]? = some m ∧
          e = ⟨mutationCall deleteMessage m,
            mutationResponse (providerAnswer service deleteMessage
              (remoteAfter service deleteMessage w.remote (messages.take k)) m)⟩ := by
  induction messages generalizing w with
  | nil => exact ⟨[], by simp [deleteMessages], by simp [deleteMessages, remoteAfter], by simp⟩
  | cons m rest ih =>
    cases hans : providerAnswer service deleteMessage w.remote m with
    | error err =>
      refine ⟨[⟨mutationCall deleteMessage m, Response.failed err⟩], ?_, ?_, ?_⟩
      · cases deleteMessage with
        | false =>
          have hcall : service.trash w.remote m.id = Except.error err := by
            simpa [providerAnswer] using hans
          simp [deleteMessages, hcall, mutationCall]
        | true =>
          have hcall : service.delete w.remote m.id = Except.error err := by
            simpa [providerAnswer] using hans
          simp [deleteMessages, hcall, mutationCall]
      · cases deleteMessage with
        | false =>
          have hcall : service.trash w.remote m.id = Except.error err := by
            simpa [providerAnswer] using hans
          simp [deleteMessages, hcall, remoteAfter, hans, World.failedCall, World.log]
        | true =>
          have hcall : service.delete w.remote m.id = Except.error err := by
            simpa [providerAnswer] using hans
          simp [deleteMessages, hcall, remoteAfter, hans, World.failedCall, World.log]
      · intro k e hk
        cases k with
        | zero =>
          simp only [List.getElem?_cons_zero, Option.some.injEq] at hk
          subst hk
          exact ⟨m, by simp, by simp [remoteAfter, hans, mutationResponse]⟩
        | succ k => simp at hk
    | ok s1 =>
      have hstep : deleteMessages service (m :: rest) deleteMessage w =
          deleteMessages service rest deleteMessage
            ((w.log ((if deleteMessage = true then "Deleting \"" else "Trashing \"") ++
              m.subject ++ "\"")).answered (mutationCall deleteMessage m) Response.done s1) := by
        cases deleteMessage with
        | false =>
          have hcall : service.trash w.remote m.id = Except.ok s1 := by
            simpa [providerAnswer] using hans
          simp [deleteMessages, hcall, mutationCall]
        | true =>
          have hcall : service.delete w.remote m.id = Except.ok s1 := by
            simpa [providerAnswer] using hans
          simp [deleteMessages, hcall, mutationCall]
      obtain ⟨t, h1, h2, h3⟩ := ih
        ((w.log ((if deleteMessage = true then "Deleting \"" else "Trashing \"") ++
          m.subject ++ "\"")).answered (mutationCall deleteMessage m) Response.done s1)
      refine ⟨⟨mutationCall deleteMessage m, Response.done⟩ :: t, ?_, ?_, ?_⟩
      · rw [hstep, h1]; simp
      · rw [hstep, h2]; simp [remoteAfter, hans]
      · intro k e hk
        cases k with
        | zero =>
          simp only [List.getElem?_cons_zero, Option.some.injEq] at hk
          subst hk
          exact ⟨m, by simp, by simp [remoteAfter, hans, mutationResponse]⟩
        | succ k =>
          simp only [List.getElem?_cons_succ] at hk
          obtain ⟨m1, hm1, he⟩ := h3 k e hk
          refine ⟨m1, by simpa using hm1, ?_⟩
          rw [he]
          simp [remoteAfter, hans]

/-- C4: for every result list and every mode flag, the calls deleteMessages
issues are, in result-list order, one call per record on that record's id, a
Trash call when the flag is false and a Delete call when it is true; when the
call at position k (counted from 0) fails, exactly k + 1 calls have been
issued; when no call fails, exactly as many calls as records are issued; the
run is fatal exactly when a call failed.  The calls are calls on the
provider: the response of the call at position k is the answer of
service.delete (flag true) or service.trash (flag false) on the id of the
record at position k, in the remote state the provider has reached after the
calls before it, so the first call the provider fails is the last one issued;
and the remote state at the end is the state the provider has reached. -/
theorem deleteMessages_calls (service : Service σ) (messages : List MessageElement)
    (deleteMessage : Bool) (w : World σ) :
    (deleteMessages service messages deleteMessage w).2.trace =
      w.trace ++ newEvents w (deleteMessages service messages deleteMessage w).2 ∧
    (newEvents w (deleteMessages service messages deleteMessage w).2).map Event.call =
      (messages.take (newEvents w (deleteMessages service messages deleteMessage w).2).length).map
        (mutationCall deleteMessage) ∧
    (∀ e ∈ newEvents w (deleteMessages service messages deleteMessage w).2,
      e.isMutation = true) ∧
    (∀ (k : Nat) (hk : k < (newEvents w (deleteMessages service messages deleteMessage w).2).length),
      ((newEvents w (deleteMessages service messages deleteMessage w).2).get ⟨k, hk⟩).failed = true →
        (newEvents w (deleteMessages service messages deleteMessage w).2).length = k + 1) ∧
    ((∀ e ∈ newEvents w (deleteMessages service messages deleteMessage w).2, e.failed = false) →
      (newEvents w (deleteMessages service messages deleteMessage w).2).length = messages.length) ∧
    ((deleteMessages service messages deleteMessage w).1 = Exec.fatal ↔
      ∃ e ∈ newEvents w (deleteMessages service messages deleteMessage w).2, e.failed = true) ∧
    (∀ (k : Nat) (e : Event),
      (newEvents w (deleteMessages service messages deleteMessage w).2)[k]? = some e →
        ∃ m, messages[k]? = some m ∧ e.call = mutationCall deleteMessage m ∧
          e.resp = mutationResponse
            (if deleteMessage = true then
              service.delete (remoteAfter service deleteMessage w.remote (messages.take k)) m.id
            else
              service.trash (remoteAfter service deleteMessage w.remote (messages.take k)) m.id)) ∧
    (∀ (k : Nat) (m : MessageElement) (err : String),
      k < (newEvents w (deleteMessages service messages deleteMessage w).2).length →
      messages[k]? = some m →
      (if deleteMessage = true then
          service.delete (remoteAfter service deleteMessage w.remote (messages.take k)) m.id
        else
          service.trash (remoteAfter service deleteMessage w.remote (messages.take k)) m.id) =
        Except.error err →
      (newEvents w (deleteMessages service messages deleteMessage w).2).length = k + 1) ∧
    (deleteMessages service messages deleteMessage w).2.remote =
      remoteAfter service deleteMessage w.remote messages := by
  obtain ⟨c1, c2, c3, c4, c5, c6⟩ := deleteMessages_recorded service messages deleteMessage w
  obtain ⟨t, p1, p2, p3⟩ := deleteMessages_provider service messages deleteMessage w
  have ht : newEvents w (deleteMessages service messages deleteMessage w).2 = t :=
    newEvents_append w _ t p1
  have key : ∀ (k : Nat) (e : Event),
      (newEvents w (deleteMessages service messages deleteMessage w).2)[k]? = some e →
        ∃ m, messages[k]? = some m ∧ e.call = mutationCall deleteMessage m ∧
          e.resp = mutationResponse
            (if deleteMessage = true then
              service.delete (remoteAfter service deleteMessage w.remote (messages.take k)) m.id
            else
              service.trash (remoteAfter service deleteMessage w.remote (messages.take k)) m.id) := by
    intro k e hk
    rw [ht] at hk
    obtain ⟨m, hm, he⟩ := p3 k e hk
    exact ⟨m, hm, by rw [he], by rw [he]; rfl⟩
  refine ⟨c1, c2, c3, c4, c5, c6, key, ?_, p2⟩
  intro k m err hk hm herr
  have hget : (newEvents w (deleteMessages service messages deleteMessage w).2)[k]? =
      some ((newEvents w (deleteMessages service messages deleteMessage w).2).get ⟨k, hk⟩) := by
    rw [List.get_eq_getElem]
    exact List.getElem?_eq_getElem hk
  obtain ⟨m1, hm1, _, hresp⟩ := key k _ hget
  rw [hm] at hm1
  cases hm1
  apply c4 k hk
  rw [herr] at hresp
  unfold Event.failed
  rw [hresp]
  rfl

/-- Witness of `deleteMessages_calls`: with the record of id "1" twice in the
result list and the mode Delete, the provider fails the second call (position
1), the mailbox no longer holding the id: exactly two calls are issued, the
third record getting none, and the mailbox is left with the ids "2" and "3". -/
theorem deleteMessages_calls_witness :
    (newEvents mailboxWorld (deleteMessages mailboxService
      [⟨"a", "", "1"⟩, ⟨"a", "", "1"⟩, ⟨"b", "", "2"⟩] true mailboxWorld).2).length = 1 + 1 ∧
    (newEvents mailboxWorld (deleteMessages mailboxService
      [⟨"a", "", "1"⟩, ⟨"a", "", "1"⟩, ⟨"b", "", "2"⟩] true mailboxWorld).2).length = 1 + 1 ∧
    (deleteMessages mailboxService
      [⟨"a", "", "1"⟩, ⟨"a", "", "1"⟩, ⟨"b", "", "2"⟩] true mailboxWorld).2.remote =
        remoteAfter mailboxService true ["1", "2", "3"]
          [⟨"a", "", "1"⟩, ⟨"a", "", "1"⟩, ⟨"b", "", "2"⟩] :=
  ⟨(deleteMessages_calls mailboxService [⟨"a", "", "1"⟩, ⟨"a", "", "1"⟩, ⟨"b", "", "2"⟩] true
      mailboxWorld).2.2.2.1 1 (by decide) (by decide),
   (deleteMessages_calls mailboxService [⟨"a", "", "1"⟩, ⟨"a", "", "1"⟩, ⟨"b", "", "2"⟩] true
      mailboxWorld).2.2.2.2.2.2.2.1 1 ⟨"a", "", "1"⟩ "not found" (by decide) (by decide) rfl,
   (deleteMessages_calls mailboxService [⟨"a", "", "1"⟩, ⟨"a", "", "1"⟩, ⟨"b", "", "2"⟩] true
      mailboxWorld).2.2.2.2.2.2.2.2⟩

/-! ## The confirmation step -/

@[simp] theorem World.log_output (w : World σ) (line : String) :
    (w.log line).output = w.output ++ [Output.log line] := rfl

@[simp] theorem World.print_output (w : World σ) (line : String) :
    (w.print line).output = w.output ++ [Output.stdout line] := rfl

theorem newEvents_self (w w1 : World σ) (h : w1.trace = w.trace) : newEvents w w1 = [] := by
  simp [newEvents, h]

theorem equalIgnoreCase_of_affirmative (c : String) (h : c = "Y" ∨ c = "y" ∨ c = "yes") :
    equalIgnoreCase c "y" = true ∨ equalIgnoreCase c "yes" = true := by
  rcases h with rfl | rfl | rfl
  · left; decide
  · left; decide
  · right; decide

theorem unable_ne_aborted (err : String) : "Unable to read response: " ++ err ≠ "Aborted" := by
  intro h
  have h1 := congrArg String.data h
  rw [String.data_append] at h1
  have h2 := congrArg List.head? h1
  revert h2
  simp

/-- C5: the confirmation step issues no call at all, hence no Trash and no
Delete call, when the result count is 0, and for every confirmation input
that is not equal, ignoring letter case, to "y" or "yes". -/
theorem confirmAndDelete_no_mutation (srv : Service σ) (messages : List MessageElement)
    (deleteFlag : Bool) (scanned : Except String String) (w : World σ)
    (h : messages.length = 0 ∨
      ∀ c, scanned = Except.ok c → equalIgnoreCase c "y" = false ∧ equalIgnoreCase c "yes" = false) :
    (confirmAndDelete srv messages deleteFlag scanned w).2.trace = w.trace ∧
    newEvents w (confirmAndDelete srv messages deleteFlag scanned w).2 = [] ∧
    ∀ e ∈ newEvents w (confirmAndDelete srv messages deleteFlag scanned w).2,
      e.isMutation = false := by
  have key : (confirmAndDelete srv messages deleteFlag scanned w).2.trace = w.trace := by
    unfold confirmAndDelete
    by_cases hpos : messages.length > 0
    · rw [if_pos hpos]
      cases scanned with
      | error err => rfl
      | ok c =>
        have hc : ¬ (c = "Y" ∨ c = "y" ∨ c = "yes") := by
          intro haff
          rcases h with h0 | hne
          · omega
          · have := hne c rfl
            rcases equalIgnoreCase_of_affirmative c haff with h1 | h1
            · rw [this.1] at h1; exact Bool.noConfusion h1
            · rw [this.2] at h1; exact Bool.noConfusion h1
        simp only [if_neg hc]
        rfl
    · rw [if_neg hpos]
  refine ⟨key, newEvents_self w _ key, ?_⟩
  rw [newEvents_self w _ key]
  intro e he
  cases he

/-- Witness of `confirmAndDelete_no_mutation`: one record found and the answer "no". -/
theorem confirmAndDelete_no_mutation_witness :
    (confirmAndDelete mailboxService [⟨"a", "", "1"⟩] false (Except.ok "no") mailboxWorld).2.trace =
      mailboxWorld.trace :=
  (confirmAndDelete_no_mutation mailboxService [⟨"a", "", "1"⟩] false (Except.ok "no") mailboxWorld
    (Or.inr (by
      intro c hc
      cases hc
      exact ⟨by decide, by decide⟩))).1

/-- C6, as stated, fails: with one record found, the inputs "Yes", "YES" and
"yEs" equal "yes" ignoring letter case, yet the confirmation step issues no
call and logs "Aborted", while the mutation step on the same list would
issue a Trash call. -/
theorem confirmAndDelete_case_counterexample :
    (equalIgnoreCase "Yes" "yes" = true ∧
      newEvents mailboxWorld (confirmAndDelete mailboxService [⟨"a", "", "1"⟩] false
        (Except.ok "Yes") mailboxWorld).2 = [] ∧
      Output.log "Aborted" ∈ (confirmAndDelete mailboxService [⟨"a", "", "1"⟩] false
        (Except.ok "Yes") mailboxWorld).2.output) ∧
    (equalIgnoreCase "YES" "yes" = true ∧
      newEvents mailboxWorld (confirmAndDelete mailboxService [⟨"a", "", "1"⟩] false
        (Except.ok "YES") mailboxWorld).2 = [] ∧
      Output.log "Aborted" ∈ (confirmAndDelete mailboxService [⟨"a", "", "1"⟩] false
        (Except.ok "YES") mailboxWorld).2.output) ∧
    (equalIgnoreCase "yEs" "yes" = true ∧
      newEvents mailboxWorld (confirmAndDelete mailboxService [⟨"a", "", "1"⟩] false
        (Except.ok "yEs") mailboxWorld).2 = [] ∧
      Output.log "Aborted" ∈ (confirmAndDelete mailboxService [⟨"a", "", "1"⟩] false
        (Except.ok "yEs") mailboxWorld).2.output) ∧
    newEvents mailboxWorld
        (deleteMessages mailboxService [⟨"a", "", "1"⟩] false mailboxWorld).2 =
      [⟨Call.trash "1", Response.done⟩] := by
  decide

/-- C6, amended: when the result count is positive, the confirmation inputs
"Y", "y" and "yes" are affirmative: the mutation step runs on the full result
list, after the question was printed, and its outcome decides the exit code;
every other input is a decline: no call is issued, "Aborted" is logged and
the exit code is 0. -/
theorem confirmAndDelete_affirmative (srv : Service σ) (messages : List MessageElement)
    (deleteFlag : Bool) (c : String) (w : World σ) (hpos : messages.length > 0) :
    ((c = "Y" ∨ c = "y" ∨ c = "yes") →
      (confirmAndDelete srv messages deleteFlag (Except.ok c) w).2 =
        (deleteMessages srv messages deleteFlag
          (w.print "Are you sure you want to delete/trash these messages ? (yes/No)\n")).2 ∧
      ((confirmAndDelete srv messages deleteFlag (Except.ok c) w).1 = 0 ↔
        (deleteMessages srv messages deleteFlag
          (w.print "Are you sure you want to delete/trash these messages ? (yes/No)\n")).1 =
            Exec.ok ())) ∧
    (¬ (c = "Y" ∨ c = "y" ∨ c = "yes") →
      confirmAndDelete srv messages deleteFlag (Except.ok c) w =
        (0, (w.print "Are you sure you want to delete/trash these messages ? (yes/No)\n").log
          "Aborted")) := by
  constructor
  · intro haff
    unfold confirmAndDelete
    rw [if_pos hpos]
    simp only [if_pos haff]
    rcases hres : deleteMessages srv messages deleteFlag
        (w.print "Are you sure you want to delete/trash these messages ? (yes/No)\n") with ⟨r, w1⟩
    cases r with
    | ok u => simp
    | fatal => simp
    | panic => simp
  · intro hneg
    unfold confirmAndDelete
    rw [if_pos hpos]
    simp only [if_neg hneg]

/-- Witness of `confirmAndDelete_affirmative`: one record found, the answer
"yes" and the mode Trash: the record is trashed. -/
theorem confirmAndDelete_affirmative_witness :
    (confirmAndDelete mailboxService [⟨"a", "", "1"⟩] false (Except.ok "yes") mailboxWorld).2 =
      (deleteMessages mailboxService [⟨"a", "", "1"⟩] false
        (mailboxWorld.print
          "Are you sure you want to delete/trash these messages ? (yes/No)\n")).2 :=
  ((confirmAndDelete_affirmative mailboxService [⟨"a", "", "1"⟩] false "yes" mailboxWorld
    (by decide)).1 (by decide)).1

/-- C7, as stated, fails: with one record found, a failed read (the error
fmt.Scanln reports for an empty line, or the end of the input) ends the run
with exit code 1 and "Aborted" is not logged. -/
theorem confirmAndDelete_read_failure_counterexample :
    ((confirmAndDelete mailboxService [⟨"a", "", "1"⟩] false (Except.error "unexpected newline")
        mailboxWorld).1 = 1 ∧
      Output.log "Aborted" ∉ (confirmAndDelete mailboxService [⟨"a", "", "1"⟩] false
        (Except.error "unexpected newline") mailboxWorld).2.output) ∧
    ((confirmAndDelete mailboxService [⟨"a", "", "1"⟩] false (Except.error "EOF")
        mailboxWorld).1 = 1 ∧
      Output.log "Aborted" ∉ (confirmAndDelete mailboxService [⟨"a", "", "1"⟩] false
        (Except.error "EOF") mailboxWorld).2.output) := by
  decide

/-- C7, amended: when the result count is positive and reading the
confirmation fails, no call is issued and the run ends through the fatal
error "Unable to read response: ..." with exit code 1, "Aborted" not being
logged; when the read yields the empty string, the run is a decline: no call
is issued, "Aborted" is logged and the exit code is 0. -/
theorem confirmAndDelete_read_failure (srv : Service σ) (messages : List MessageElement)
    (deleteFlag : Bool) (err : String) (w : World σ) (hpos : messages.length > 0) :
    (confirmAndDelete srv messages deleteFlag (Except.error err) w =
        (1, (w.print "Are you sure you want to delete/trash these messages ? (yes/No)\n").log
          ("Unable to read response: " ++ err)) ∧
      newEvents w (confirmAndDelete srv messages deleteFlag (Except.error err) w).2 = [] ∧
      Output.log "Aborted" ∉
        newOutput w (confirmAndDelete srv messages deleteFlag (Except.error err) w).2) ∧
    (confirmAndDelete srv messages deleteFlag (Except.ok "") w =
        (0, (w.print "Are you sure you want to delete/trash these messages ? (yes/No)\n").log
          "Aborted") ∧
      newEvents w (confirmAndDelete srv messages deleteFlag (Except.ok "") w).2 = []) := by
  have h1 : confirmAndDelete srv messages deleteFlag (Except.error err) w =
      (1, (w.print "Are you sure you want to delete/trash these messages ? (yes/No)\n").log
        ("Unable to read response: " ++ err)) := by
    unfold confirmAndDelete
    rw [if_pos hpos]
  have h2 : confirmAndDelete srv messages deleteFlag (Except.ok "") w =
      (0, (w.print "Are you sure you want to delete/trash these messages ? (yes/No)\n").log
        "Aborted") := by
    unfold confirmAndDelete
    rw [if_pos hpos]
    simp only [if_neg (by decide : ¬ (("" : String) = "Y" ∨ ("" : String) = "y" ∨ ("" : String) = "yes"))]
  refine ⟨⟨h1, ?_, ?_⟩, h2, ?_⟩
  · rw [h1]; exact newEvents_self w _ rfl
  · rw [h1]
    simp only [newOutput, World.log_output, World.print_output, List.append_assoc,
      List.drop_left, List.mem_append, List.mem_singleton, not_or]
    refine ⟨by simp, ?_⟩
    intro h
    injection h with h
    exact unable_ne_aborted err h.symm
  · rw [h2]; exact newEvents_self w _ rfl

/-- Witness of `confirmAndDelete_read_failure`: one record found and a read
that fails at the end of the input. -/
theorem confirmAndDelete_read_failure_witness :
    (confirmAndDelete mailboxService [⟨"a", "", "1"⟩] false (Except.error "EOF") mailboxWorld).1 = 1 :=
  congrArg Prod.fst
    (confirmAndDelete_read_failure mailboxService [⟨"a", "", "1"⟩] false "EOF" mailboxWorld
      (by decide)).1.1

/-! ## The search -/

theorem listPages_fuel_mono (service : Service σ) (search : String) (n k : Nat)
    (pageToken : String) (msgs : List MessageElement) (w : World σ)
    (r : Exec (List MessageElement × String) × World σ)
    (h : listPages service search n pageToken msgs w = some r) :
    listPages service search (n + k) pageToken msgs w = some r := by
  induction n generalizing pageToken msgs w with
  | zero => simp [listPages] at h
  | succ n ih =>
    rw [Nat.add_right_comm]
    simp only [listPages] at h ⊢
    cases hl : service.list w.remote search (requestToken pageToken) with
    | error err => rw [hl] at h; exact h
    | ok p =>
      obtain ⟨resp, s⟩ := p
      rw [hl] at h
      simp only at h ⊢
      rcases hf : fetchMessages service resp.Messages msgs
        (w.answered (Call.list search (requestToken pageToken)) (Response.listed resp) s)
        with ⟨e, w1⟩
      rw [hf] at h
      cases e with
      | fatal => exact h
      | panic => exact h
      | ok msgs1 =>
        simp only at h ⊢
        by_cases hnext : resp.NextPageToken = ""
        · rw [if_pos hnext] at h ⊢; exact h
        · rw [if_neg hnext] at h ⊢; exact ih _ _ _ h

theorem searchQueries_fuel_mono (service : Service σ) (n k : Nat) (queries : List String)
    (pageToken : String) (msgs : List MessageElement) (w : World σ)
    (r : Exec (List MessageElement) × World σ)
    (h : searchQueries service n queries pageToken msgs w = some r) :
    searchQueries service (n + k) queries pageToken msgs w = some r := by
  induction queries generalizing pageToken msgs w with
  | nil => simpa [searchQueries] using h
  | cons q rest ih =>
    simp only [searchQueries] at h ⊢
    cases hl : listPages service q n pageToken msgs
        (w.log ("Searching messages with \"" ++ q ++ "\"")) with
    | none => rw [hl] at h; simp at h
    | some p =>
      rw [listPages_fuel_mono service q n k _ _ _ p hl]
      rw [hl] at h
      obtain ⟨e, w1⟩ := p
      cases e with
      | fatal => exact h
      | panic => exact h
      | ok v =>
        obtain ⟨msgs1, tok1⟩ := v
        simp only at h ⊢
        exact ih _ _ _ h

/-- A result of searchMail does not depend on the fuel: more fuel gives the same result. -/
theorem searchMail_fuel_mono (service : Service σ) (n k : Nat) (queries : List String)
    (w : World σ) (r : Exec (List MessageElement) × World σ)
    (h : searchMail service n queries w = some r) :
    searchMail service (n + k) queries w = some r := by
  unfold searchMail at h ⊢
  cases hq : searchQueries service n queries "" [] w with
  | none => rw [hq] at h; simp at h
  | some p =>
    rw [searchQueries_fuel_mono service n k _ _ _ _ p hq]
    rw [hq] at h
    exact h

theorem searchMail_of_le (service : Service σ) (n fuel : Nat) (queries : List String)
    (w : World σ) (r : Exec (List MessageElement) × World σ)
    (h : searchMail service n queries w = some r) (hle : n ≤ fuel) :
    searchMail service fuel queries w = some r := by
  obtain ⟨k, rfl⟩ := Nat.exists_eq_add_of_le hle
  exact searchMail_fuel_mono service n k queries w r h

theorem main_fuel_mono (srv : Service σ) (opts : AppConfig) (scanned : Except String String)
    (n k : Nat) (w : World σ) (r : Nat × World σ)
    (h : main srv opts scanned n w = some r) :
    main srv opts scanned (n + k) w = some r := by
  unfold main at h ⊢
  cases hs : searchMail srv n opts.Search w with
  | none => rw [hs] at h; simp at h
  | some p =>
    rw [searchMail_fuel_mono srv n k _ _ p hs]
    rw [hs] at h
    exact h

/-- C1 fails on the code.  On `offsetService` every call succeeds, the page
sequence of "q1" has two pages with one message each and the page sequence
of "q2" three pages with one message each, every sequence ending with an
empty token: five summaries in all.  For every fuel from 2 on, searchMail
on the queries "q1", "q2" returns four records: the token "1" left over from
"q1" is sent with the first request of "q2", whose first page, with the
message "c", is never listed. -/
theorem searchMail_length_stale_token :
    pageSequence offsetList "q1" 2 none =
      some [⟨[summary "a"], "1"⟩, ⟨[summary "b"], ""⟩] ∧
    pageSequence offsetList "q2" 3 none =
      some [⟨[summary "c"], "1"⟩, ⟨[summary "d"], "2"⟩, ⟨[summary "e"], ""⟩] ∧
    ∀ k : Nat,
      (searchMail offsetService (2 + k) ["q1", "q2"] emptyWorld).map
          (fun r => (r.1, r.2.trace.all (fun e => !e.failed))) =
        some (Exec.ok [{ id := "a", subject := "S-a", date := "D-a" },
          { id := "b", subject := "S-b", date := "D-b" },
          { id := "d", subject := "S-d", date := "D-d" },
          { id := "e", subject := "S-e", date := "D-e" }], true) := by
  refine ⟨by decide, by decide, ?_⟩
  intro k
  have h2 : (searchMail offsetService 2 ["q1", "q2"] emptyWorld).isSome = true := by decide
  obtain ⟨r, hr⟩ := Option.isSome_iff_exists.mp h2
  rw [searchMail_fuel_mono offsetService 2 k _ _ r hr, ← hr]
  decide

/-- C3 fails on the code.  On `offsetService`, for every fuel from 2 on, the
calls of searchMail on the queries "q1", "q2" are, in order: the first list
request of "q1" without token, answered with the continuation token "1"; the
second list request of "q1" with the token "1", answered with an empty token;
then the first list request of "q2", which carries the token "1" left over
from "q1". -/
theorem searchMail_first_request_stale_token :
    offsetList "q1" none = Except.ok ⟨[summary "a"], "1"⟩ ∧
    offsetList "q1" (some "1") = Except.ok ⟨[summary "b"], ""⟩ ∧
    ∀ k : Nat,
      (searchMail offsetService (2 + k) ["q1", "q2"] emptyWorld).map
          (fun r => r.2.trace.map Event.call) =
        some [Call.list "q1" none, Call.get "a", Call.list "q1" (some "1"), Call.get "b",
          Call.list "q2" (some "1"), Call.get "d", Call.list "q2" (some "2"), Call.get "e"] := by
  refine ⟨rfl, rfl, ?_⟩
  intro k
  have h2 : (searchMail offsetService 2 ["q1", "q2"] emptyWorld).isSome = true := by decide
  obtain ⟨r, hr⟩ := Option.isSome_iff_exists.mp h2
  rw [searchMail_fuel_mono offsetService 2 k _ _ r hr, ← hr]
  decide

/-- C8 fails on the code.  On `offsetService` every call succeeds and the page
sequence of "q2" has three pages of which only the last has an empty token,
yet for every fuel from 2 on searchMail on the queries "q1", "q2" issues two
list calls for "q2", not three; it issues one get call per summary listed
(four of each). -/
theorem searchMail_list_calls_stale_token :
    (pageSequence offsetList "q2" 3 none).map
        (fun pages => pages.map (fun r => decide (r.NextPageToken = ""))) =
      some [false, false, true] ∧
    ∀ k : Nat,
      (searchMail offsetService (2 + k) ["q1", "q2"] emptyWorld).map
          (fun r => ((r.2.trace.filter (Event.isListFor "q2")).length,
            (r.2.trace.filter Event.isGet).length,
            r.2.trace.all (fun e => !e.failed))) =
        some (2, 4, true) := by
  refine ⟨by decide, ?_⟩
  intro k
  have h2 : (searchMail offsetService 2 ["q1", "q2"] emptyWorld).isSome = true := by decide
  obtain ⟨r, hr⟩ := Option.isSome_iff_exists.mp h2
  rw [searchMail_fuel_mono offsetService 2 k _ _ r hr, ← hr]
  decide

/-- C9 fails on the code at its own example.  With the two queries each
returning one page with one message, the message "1" with the headers
Subject=Hi, Date=D1 and the message "2" with the headers Subject=Bye,
Date=D2, in the order written, searchMail returns the records of ids "1" and
"2" in that order, and a run confirmed with "yes" in mode Trash issues
Trash("1") then Trash("2") and ends with exit code 0; but both dates are
empty, the scan having stopped at the "Subject" header.  With the "Date"
header before the "Subject" header the records are the ones the example
gives. -/
theorem scenario_subject_before_date :
    (∀ k : Nat,
      (searchMail (scenarioService [⟨"Subject", "Hi"⟩, ⟨"Date", "D1"⟩]
          [⟨"Subject", "Bye"⟩, ⟨"Date", "D2"⟩]) (1 + k) scenarioOpts.Search emptyWorld).map
          (fun r => r.1) =
        some (Exec.ok [{ id := "1", subject := "Hi", date := "" },
          { id := "2", subject := "Bye", date := "" }])) ∧
    (∀ k : Nat,
      (main (scenarioService [⟨"Subject", "Hi"⟩, ⟨"Date", "D1"⟩]
          [⟨"Subject", "Bye"⟩, ⟨"Date", "D2"⟩]) scenarioOpts (Except.ok "yes") (1 + k)
          emptyWorld).map
          (fun r => (r.1, (r.2.trace.filter Event.isMutation).map Event.call)) =
        some (0, [Call.trash "1", Call.trash "2"])) ∧
    (∀ k : Nat,
      (searchMail (scenarioService [⟨"Date", "D1"⟩, ⟨"Subject", "Hi"⟩]
          [⟨"Date", "D2"⟩, ⟨"Subject", "Bye"⟩]) (1 + k) scenarioOpts.Search emptyWorld).map
          (fun r => r.1) =
        some (Exec.ok [{ id := "1", subject := "Hi", date := "D1" },
          { id := "2", subject := "Bye", date := "D2" }])) := by
  refine ⟨?_, ?_, ?_⟩
  · intro k
    have h2 : (searchMail (scenarioService [⟨"Subject", "Hi"⟩, ⟨"Date", "D1"⟩]
        [⟨"Subject", "Bye"⟩, ⟨"Date", "D2"⟩]) 1 scenarioOpts.Search emptyWorld).isSome = true := by
      decide
    obtain ⟨r, hr⟩ := Option.isSome_iff_exists.mp h2
    rw [searchMail_fuel_mono _ 1 k _ _ r hr, ← hr]
    decide
  · intro k
    have h2 : (main (scenarioService [⟨"Subject", "Hi"⟩, ⟨"Date", "D1"⟩]
        [⟨"Subject", "Bye"⟩, ⟨"Date", "D2"⟩]) scenarioOpts (Except.ok "yes") 1
        emptyWorld).isSome = true := by
      decide
    obtain ⟨r, hr⟩ := Option.isSome_iff_exists.mp h2
    rw [main_fuel_mono _ _ _ 1 k _ r hr, ← hr]
    decide
  · intro k
    have h2 : (searchMail (scenarioService [⟨"Date", "D1"⟩, ⟨"Subject", "Hi"⟩]
        [⟨"Date", "D2"⟩, ⟨"Subject", "Bye"⟩]) 1 scenarioOpts.Search emptyWorld).isSome = true := by
      decide
    obtain ⟨r, hr⟩ := Option.isSome_iff_exists.mp h2
    rw [searchMail_fuel_mono _ 1 k _ _ r hr, ← hr]
    decide

/-- A get response without payload ends the run by a panic at line 118: on
`bareService` the run stops after the first list call and the first get
call, with exit code 2, whatever the confirmation would have been. -/
theorem main_panics_without_payload :
    ∀ k : Nat,
      (main bareService scenarioOpts (Except.ok "yes") (1 + k) emptyWorld).map
          (fun r => (r.1, r.2.trace.map Event.call)) =
        some (2, [Call.list "from:a@x.com" none, Call.get "1"]) := by
  intro k
  have h2 : (main bareService scenarioOpts (Except.ok "yes") 1 emptyWorld).isSome = true := by
    decide
  obtain ⟨r, hr⟩ := Option.isSome_iff_exists.mp h2
  rw [main_fuel_mono _ _ _ 1 k _ r hr, ← hr]
  decide

/-! ## The search on a service without state -/

theorem detailService_get (list : String → Option String → Except String ListMessagesResponse)
    (detail : String → MessagePart) (s : Unit) (id : String) :
    (detailService list detail).get s id = Except.ok (⟨id, some (detail id)⟩, ()) := rfl

theorem detailService_list_ok (list : String → Option String → Except String ListMessagesResponse)
    (detail : String → MessagePart) (s : Unit) (q : String) (tok : Option String)
    (r : ListMessagesResponse) (h : list q tok = Except.ok r) :
    (detailService list detail).list s q tok = Except.ok (r, ()) := by
  show (list q tok).map (fun r => (r, ())) = _
  rw [h]
  rfl

theorem fetchMessages_detail (list : String → Option String → Except String ListMessagesResponse)
    (detail : String → MessagePart) (ms : List Message) (msgs : List MessageElement)
    (w : World Unit) :
    ∃ w1 : World Unit,
      fetchMessages (detailService list detail) ms msgs w =
        (Exec.ok (msgs ++ ms.map (fun m => mkElement m.Id (detail m.Id).Headers)), w1) ∧
      w1.trace = w.trace ++ ms.map (fun m => ⟨Call.get m.Id, Response.got ⟨m.Id, some (detail m.Id)⟩⟩) := by
  induction ms generalizing msgs w with
  | nil => exact ⟨w, by simp [fetchMessages], by simp⟩
  | cons m rest ih =>
    obtain ⟨w1, h1, h2⟩ := ih (msgs ++ [mkElement m.Id (detail m.Id).Headers])
      ((w.answered (Call.get m.Id) (Response.got ⟨m.Id, some (detail m.Id)⟩) ()).print
        ("==> \"" ++ (mkElement m.Id (detail m.Id).Headers).subject ++ "\" - " ++
          (mkElement m.Id (detail m.Id).Headers).date ++ "\n"))
    refine ⟨w1, ?_, ?_⟩
    · simp only [fetchMessages, detailService_get]
      rw [h1]
      simp
    · rw [h2]
      simp

/-- On a service without state whose calls succeed, the inner loop of
searchMail started with the page token `tok` returns when the page sequence
from that token ends within the fuel: it appends the records of these pages,
with one list call per page and one get call per summary. -/
theorem listPages_detail (list : String → Option String → Except String ListMessagesResponse)
    (detail : String → MessagePart) (q : String) (n : Nat) (tok : String)
    (msgs : List MessageElement) (w : World Unit) (pages : List ListMessagesResponse)
    (h : pageSequence list q n (requestToken tok) = some pages) :
    ∃ (tok1 : String) (w1 : World Unit) (t : List Event),
      listPages (detailService list detail) q n tok msgs w =
        some (Exec.ok (msgs ++ recordsOf detail pages, tok1), w1) ∧
      w1.trace = w.trace ++ t ∧
      t.countP (Event.isListFor q) = pages.length ∧
      t.countP Event.isGet = (recordsOf detail pages).length ∧
      (∀ e ∈ t, e.failed = false) := by
  induction n generalizing tok msgs w pages with
  | zero => simp [pageSequence] at h
  | succ n ih =>
    simp only [pageSequence] at h
    cases hl : list q (requestToken tok) with
    | error err => rw [hl] at h; simp at h
    | ok r =>
      rw [hl] at h
      simp only at h
      obtain ⟨w1, hf1, hf2⟩ := fetchMessages_detail list detail r.Messages msgs
        (w.answered (Call.list q (requestToken tok)) (Response.listed r) ())
      have hget : ∀ ms : List Message,
          (ms.map (fun m => (⟨Call.get m.Id, Response.got ⟨m.Id, some (detail m.Id)⟩⟩ : Event))).countP
            (Event.isListFor q) = 0 ∧
          (ms.map (fun m => (⟨Call.get m.Id, Response.got ⟨m.Id, some (detail m.Id)⟩⟩ : Event))).countP
            Event.isGet = ms.length ∧
          ∀ e ∈ ms.map (fun m => (⟨Call.get m.Id, Response.got ⟨m.Id, some (detail m.Id)⟩⟩ : Event)),
            e.failed = false := by
        intro ms
        induction ms with
        | nil => simp
        | cons m rest ihm =>
          obtain ⟨i1, i2, i3⟩ := ihm
          refine ⟨?_, ?_, ?_⟩
          · simp only [List.map_cons, List.countP_cons, i1]
            simp [Event.isListFor]
          · simp only [List.map_cons, List.countP_cons, i2]
            simp [Event.isGet]
          · intro e he
            simp only [List.map_cons, List.mem_cons] at he
            rcases he with rfl | he
            · rfl
            · exact i3 e he
      obtain ⟨g1, g2, g3⟩ := hget r.Messages
      by_cases hnext : r.NextPageToken = ""
      · rw [if_pos hnext] at h
        cases h
        refine ⟨tok, w1, _, ?_, by rw [hf2]; simp only [World.answered_trace, List.append_assoc]; rfl,
          ?_, ?_, ?_⟩
        · simp only [listPages, detailService_list_ok list detail _ q _ r hl]
          rw [hf1]
          simp [hnext, recordsOf]
        · simp only [List.singleton_append, List.countP_cons, g1]
          simp [Event.isListFor]
        · simp only [List.singleton_append, List.countP_cons, g2]
          simp [Event.isGet, recordsOf]
        · intro e he
          simp only [List.singleton_append, List.mem_cons] at he
          rcases he with rfl | he
          · rfl
          · exact g3 e he
      · rw [if_neg hnext] at h
        cases hrest : pageSequence list q n (some r.NextPageToken) with
        | none => rw [hrest] at h; simp at h
        | some rest =>
          rw [hrest] at h
          simp only [Option.map_some', Option.some.injEq] at h
          subst h
          have htok : requestToken r.NextPageToken = some r.NextPageToken := by
            simp [requestToken, hnext]
          obtain ⟨tok1, w2, t2, k1, k2, k3, k4, k5⟩ := ih r.NextPageToken
            (msgs ++ r.Messages.map (fun m => mkElement m.Id (detail m.Id).Headers)) w1
            rest (by rw [htok]; exact hrest)
          refine ⟨tok1, w2, ([⟨Call.list q (requestToken tok), Response.listed r⟩] ++
            r.Messages.map (fun m => ⟨Call.get m.Id, Response.got ⟨m.Id, some (detail m.Id)⟩⟩)) ++ t2,
            ?_, ?_, ?_, ?_, ?_⟩
          · simp only [listPages, detailService_list_ok list detail _ q _ r hl]
            rw [hf1]
            simp only [if_neg hnext]
            rw [k1]
            simp [recordsOf]
          · rw [k2, hf2]
            simp
          · simp only [List.countP_append, List.countP_cons, List.countP_nil, g1, k3]
            simp [Event.isListFor]
            omega
          · simp only [List.countP_append, List.countP_cons, List.countP_nil, g2, k4]
            simp [Event.isGet, recordsOf]
          · intro e he
            simp only [List.mem_append, List.mem_singleton] at he
            rcases he with (rfl | he) | he
            · rfl
            · exact g3 e he
            · exact k5 e he

/-- A search on one query returns, given enough fuel: on a service without
state whose calls succeed, when the page sequence of the query `q` ends with
an empty token within `n` pages, searchMail on `[q]` with any fuel from `n`
on returns the records of these pages in order, having issued one list call
per page and one get call per summary, none of which failed. -/
theorem searchMail_single_query
    (list : String → Option String → Except String ListMessagesResponse)
    (detail : String → MessagePart) (q : String) (n k : Nat) (w : World Unit)
    (pages : List ListMessagesResponse) (h : pageSequence list q n none = some pages) :
    ∃ w1 : World Unit,
      searchMail (detailService list detail) (n + k) [q] w =
        some (Exec.ok (recordsOf detail pages), w1) ∧
      (newEvents w w1).countP (Event.isListFor q) = pages.length ∧
      (newEvents w w1).countP Event.isGet = (recordsOf detail pages).length ∧
      (∀ e ∈ newEvents w w1, e.failed = false) := by
  obtain ⟨tok1, w1, t, h1, h2, h3, h4, h5⟩ := listPages_detail list detail q n "" []
    (w.log ("Searching messages with \"" ++ q ++ "\"")) pages (by simpa [requestToken] using h)
  have hs : searchMail (detailService list detail) n [q] w =
      some (Exec.ok (recordsOf detail pages),
        w1.log (toString (recordsOf detail pages).length ++
          " messages found with these criteria...\n")) := by
    simp only [searchMail, searchQueries]
    rw [h1]
    simp
  refine ⟨_, searchMail_fuel_mono _ n k _ _ _ hs, ?_⟩
  have ht : newEvents w (w1.log (toString (recordsOf detail pages).length ++
      " messages found with these criteria...\n")) = t :=
    newEvents_append w _ t (by simpa using h2)
  rw [ht]
  exact ⟨h3, h4, h5⟩

/-- Witness of `searchMail_single_query`: the query "q2" alone on the pages of `offsetList`. -/
theorem searchMail_single_query_witness :
    ∃ w1 : World Unit,
      searchMail (detailService offsetList noHeaders) (3 + 0) ["q2"] emptyWorld =
        some (Exec.ok (recordsOf noHeaders
          [⟨[summary "c"], "1"⟩, ⟨[summary "d"], "2"⟩, ⟨[summary "e"], ""⟩]), w1) ∧
      (newEvents emptyWorld w1).countP (Event.isListFor "q2") = 3 ∧
      (newEvents emptyWorld w1).countP Event.isGet = (recordsOf noHeaders
          [⟨[summary "c"], "1"⟩, ⟨[summary "d"], "2"⟩, ⟨[summary "e"], ""⟩]).length ∧
      (∀ e ∈ newEvents emptyWorld w1, e.failed = false) :=
  searchMail_single_query offsetList noHeaders "q2" 3 0 emptyWorld _ (by decide)

/-! ## What a successful search has listed -/

theorem fetchMessages_ok (service : Service σ) (ms : List Message) (msgs msgs1 : List MessageElement)
    (w w1 : World σ) (h : fetchMessages service ms msgs w = (Exec.ok msgs1, w1)) :
    ∃ t : List Event, w1.trace = w.trace ++ t ∧
      msgs1.map (fun e => e.id) = msgs.map (fun e => e.id) ++ ms.map (fun m => m.Id) ∧
      t.flatMap Event.getIds = ms.map (fun m => m.Id) ∧
      t.flatMap Event.listedIds = [] ∧
      (∀ e ∈ t, e.failed = false ∧ e.isMutation = false) := by
  induction ms generalizing msgs w with
  | nil =>
    simp only [fetchMessages, Prod.mk.injEq, Exec.ok.injEq] at h
    obtain ⟨rfl, rfl⟩ := h
    exact ⟨[], by simp⟩
  | cons m rest ih =>
    simp only [fetchMessages] at h
    cases hg : service.get w.remote m.Id with
    | error err => rw [hg] at h; simp at h
    | ok p =>
      obtain ⟨msg, s⟩ := p
      rw [hg] at h
      simp only at h
      cases hp : msg.Payload with
      | none => rw [hp] at h; simp at h
      | some payload =>
        rw [hp] at h
        obtain ⟨t, h1, h2, h3, h4, h5⟩ := ih _ _ h
        refine ⟨⟨Call.get m.Id, Response.got msg⟩ :: t, ?_, ?_, ?_, ?_, ?_⟩
        · rw [h1]; simp
        · rw [h2]; simp [mkElement]
        · simp [List.flatMap_cons, h3, Event.getIds]
        · simp [List.flatMap_cons, h4, Event.listedIds]
        · intro e he
          rcases List.mem_cons.mp he with rfl | he
          · exact ⟨rfl, rfl⟩
          · exact h5 e he

theorem listPages_ok (service : Service σ) (q : String) (n : Nat) (tok tok1 : String)
    (msgs msgs1 : List MessageElement) (w w1 : World σ)
    (h : listPages service q n tok msgs w = some (Exec.ok (msgs1, tok1), w1)) :
    ∃ t : List Event, w1.trace = w.trace ++ t ∧
      msgs1.map (fun e => e.id) = msgs.map (fun e => e.id) ++ t.flatMap Event.listedIds ∧
      t.flatMap Event.getIds = t.flatMap Event.listedIds ∧
      (∀ e ∈ t, e.failed = false ∧ e.isMutation = false) := by
  induction n generalizing tok msgs w with
  | zero => simp [listPages] at h
  | succ n ih =>
    simp only [listPages] at h
    cases hl : service.list w.remote q (requestToken tok) with
    | error err => rw [hl] at h; simp at h
    | ok p =>
      obtain ⟨r, s⟩ := p
      rw [hl] at h
      simp only at h
      rcases hf : fetchMessages service r.Messages msgs
        (w.answered (Call.list q (requestToken tok)) (Response.listed r) s) with ⟨e, w2⟩
      rw [hf] at h
      cases e with
      | fatal => simp at h
      | panic => simp at h
      | ok msgs2 =>
        simp only at h
        obtain ⟨t, f1, f2, f3, f4, f5⟩ := fetchMessages_ok service _ _ _ _ _ hf
        by_cases hnext : r.NextPageToken = ""
        · rw [if_pos hnext] at h
          simp only [Option.some.injEq, Prod.mk.injEq, Exec.ok.injEq] at h
          obtain ⟨⟨rfl, rfl⟩, rfl⟩ := h
          refine ⟨⟨Call.list q (requestToken tok), Response.listed r⟩ :: t, ?_, ?_, ?_, ?_⟩
          · rw [f1]; simp
          · rw [f2]; simp [List.flatMap_cons, f4, Event.listedIds]
          · simp [List.flatMap_cons, f3, f4, Event.listedIds, Event.getIds]
          · intro e he
            rcases List.mem_cons.mp he with rfl | he
            · exact ⟨rfl, rfl⟩
            · exact f5 e he
        · rw [if_neg hnext] at h
          obtain ⟨t2, k1, k2, k3, k4⟩ := ih _ _ _ h
          refine ⟨(⟨Call.list q (requestToken tok), Response.listed r⟩ :: t) ++ t2, ?_, ?_, ?_, ?_⟩
          · rw [k1, f1]; simp
          · rw [k2, f2]
            simp [List.flatMap_append, List.flatMap_cons, f4, Event.listedIds]
          · simp [List.flatMap_append, List.flatMap_cons, f3, f4, k3, Event.listedIds,
              Event.getIds]
          · intro e he
            rcases List.mem_append.mp he with he | he
            · rcases List.mem_cons.mp he with rfl | he
              · exact ⟨rfl, rfl⟩
              · exact f5 e he
            · exact k4 e he

theorem searchQueries_ok (service : Service σ) (n : Nat) (queries : List String) (tok : String)
    (msgs msgs1 : List MessageElement) (w w1 : World σ)
    (h : searchQueries service n queries tok msgs w = some (Exec.ok msgs1, w1)) :
    ∃ t : List Event, w1.trace = w.trace ++ t ∧
      msgs1.map (fun e => e.id) = msgs.map (fun e => e.id) ++ t.flatMap Event.listedIds ∧
      t.flatMap Event.getIds = t.flatMap Event.listedIds ∧
      (∀ e ∈ t, e.failed = false ∧ e.isMutation = false) := by
  induction queries generalizing tok msgs w with
  | nil =>
    simp only [searchQueries, Option.some.injEq, Prod.mk.injEq, Exec.ok.injEq] at h
    obtain ⟨rfl, rfl⟩ := h
    exact ⟨[], by simp⟩
  | cons q rest ih =>
    simp only [searchQueries] at h
    cases hl : listPages service q n tok msgs
        (w.log ("Searching messages with \"" ++ q ++ "\"")) with
    | none => rw [hl] at h; simp at h
    | some p =>
      rw [hl] at h
      obtain ⟨e, w2⟩ := p
      cases e with
      | fatal => simp at h
      | panic => simp at h
      | ok v =>
        obtain ⟨msgs2, tok2⟩ := v
        simp only at h
        obtain ⟨t, f1, f2, f3, f4⟩ := listPages_ok service q n tok tok2 msgs msgs2 _ w2 hl
        obtain ⟨t2, k1, k2, k3, k4⟩ := ih _ _ _ h
        refine ⟨t ++ t2, ?_, ?_, ?_, ?_⟩
        · rw [k1, f1]; simp
        · rw [k2, f2]; simp [List.flatMap_append]
        · simp [List.flatMap_append, f3, k3]
        · intro e he
          rcases List.mem_append.mp he with he | he
          · exact f4 e he
          · exact k4 e he

/-- Whenever searchMail returns, every call it issued succeeded and is a list
or a get call; the ids of the records it returns are, in order, the ids of
the summaries listed by its list calls, in the order of the calls and, in a
response, in the order of the response; and the get calls were issued on
exactly these ids, in the same order.  Nothing is removed: an id listed twice
gives two records. -/
theorem searchMail_ids (service : Service σ) (fuel : Nat) (queries : List String)
    (w w1 : World σ) (msgs : List MessageElement)
    (h : searchMail service fuel queries w = some (Exec.ok msgs, w1)) :
    msgs.map (fun e => e.id) = (newEvents w w1).flatMap Event.listedIds ∧
    (newEvents w w1).flatMap Event.getIds = (newEvents w w1).flatMap Event.listedIds ∧
    (∀ e ∈ newEvents w w1, e.failed = false ∧ e.isMutation = false) := by
  unfold searchMail at h
  cases hq : searchQueries service fuel queries "" [] w with
  | none => rw [hq] at h; simp at h
  | some p =>
    rw [hq] at h
    obtain ⟨e, w2⟩ := p
    cases e with
    | fatal => simp at h
    | panic => simp at h
    | ok msgs2 =>
      simp only [Option.some.injEq, Prod.mk.injEq, Exec.ok.injEq] at h
      obtain ⟨rfl, rfl⟩ := h
      obtain ⟨t, h1, h2, h3, h4⟩ := searchQueries_ok service fuel queries "" [] msgs2 w w2 hq
      rw [newEvents_append w _ t (by simpa using h1)]
      exact ⟨by simpa using h2, h3, h4⟩

/-- Witness of `searchMail_ids`: the queries "q1", "q2" on `offsetService`. -/
theorem searchMail_ids_witness :
    ∃ (msgs : List MessageElement) (w1 : World Unit),
      searchMail offsetService 2 ["q1", "q2"] emptyWorld = some (Exec.ok msgs, w1) ∧
      msgs.map (fun e => e.id) = (newEvents emptyWorld w1).flatMap Event.listedIds := by
  have hd : (searchMail offsetService 2 ["q1", "q2"] emptyWorld).map
      (fun r => decide (r.1 = Exec.fatal ∨ r.1 = Exec.panic)) = some false := by decide
  cases hs : searchMail offsetService 2 ["q1", "q2"] emptyWorld with
  | none => rw [hs] at hd; simp at hd
  | some p =>
    obtain ⟨e, w1⟩ := p
    cases e with
    | fatal => rw [hs] at hd; simp at hd
    | panic => rw [hs] at hd; simp at hd
    | ok msgs => exact ⟨msgs, w1, rfl, (searchMail_ids offsetService 2 _ _ w1 msgs hs).1⟩

end GmailCleaner
